import Mathlib

/-!
# doomsday CLI front end: dispatch protocol of `cmd/main.go`

A shallow embedding of `registerCommands`, `main` and `bailWith` from
`cmd/main.go`.  The process is modelled as a function from its inputs (the way
the argument parser's call of line 81 ends, the flag values, and the behaviour of
the collaborators declared in other files: `loadConfig`, `CurrentTarget`,
`saveConfig`, the handlers' `Run`, and `url.Parse`) to the ordered list of calls
`main` makes and the way the process ends.
-/

namespace Doomsday

/-! ## Data model -/

/-- Modelled from the spec: the record type `CLITarget` is declared outside `main.go`;
`main` reads its fields `Address`, `Token` and `SkipVerify`. -/
structure CLITarget where
  Name : String
  Address : String
  Token : String
  SkipVerify : Bool
deriving DecidableEq, Repr

/-- Modelled from the spec: the type `CLIConfig` is declared outside `main.go`
(named targets plus the name of the current one). `main` only passes it around. -/
structure CLIConfig where
  Current : Option String
  Targets : List CLITarget
deriving DecidableEq, Repr

/-- The value `url.Parse` yields (`net/url.URL`), kept as its components. -/
structure URL where
  Scheme : String
  Host : String
  Path : String
deriving DecidableEq, Repr

/-- An `io.Writer`; the only one `main` ever uses is `os.Stderr`. -/
inductive Writer where
  | stderr
deriving DecidableEq, Repr

/-- A `doomsday.Client` as built at lines 115-126. `InsecureSkipVerify` is the field
of `Client.Transport.TLSClientConfig`; `Trace` is `none` for a nil writer. -/
structure Client where
  URL : URL
  Token : String
  InsecureSkipVerify : Bool
  Trace : Option Writer
deriving DecidableEq, Repr

/-- A Go `error` value: its dynamic type is either `*doomsday.ErrUnauthorized`
or anything else, and `Error()` gives its text. -/
inductive GoError where
  | unauthorized (msg : String)
  | other (msg : String)
deriving DecidableEq, Repr

/-- The method `Error()`. -/
def GoError.Error : GoError → String
  | .unauthorized msg => msg
  | .other msg => msg

/-- The type assertion `err.(*doomsday.ErrUnauthorized)` of line 131. -/
def GoError.is401 : GoError → Bool
  | .unauthorized _ => true
  | .other _ => false

/-- The concrete handler types `main.go` stores in `cmdIndex`. -/
inductive CmdType where
  | serverCmd
  | targetCmd
  | targetsCmd
  | loginCmd
  | listCmd
  | dashboardCmd
  | schedulerCmd
  | refreshCmd
  | infoCmd
deriving DecidableEq, Repr

/-- An interface value holding a handler: dynamic type plus the address of the
object it points to. Two interface values are the same object exactly when both
components agree. -/
structure Command where
  typ : CmdType
  ptr : Nat
deriving DecidableEq, Repr

/-- A pointer to a parsed flag or argument value, as returned by kingpin's
`.String()` and `.Bool()`: the command it belongs to and its name. -/
structure FlagRef where
  command : String
  name : String
deriving DecidableEq, Repr

/-- The handler objects allocated by `registerCommands`, with their fields. -/
inductive CmdObj where
  | serverCmd (ManifestPath : FlagRef)
  | targetCmd (Name Address SkipVerify Delete : FlagRef)
  | targetsCmd
  | loginCmd (Username Password : FlagRef)
  | listCmd (Beyond Within : FlagRef)
  | dashboardCmd
  | schedulerCmd
  | refreshCmd
  | infoCmd
deriving DecidableEq, Repr

/-- The dynamic type of a handler object. -/
def CmdObj.typ : CmdObj → CmdType
  | .serverCmd _ => .serverCmd
  | .targetCmd _ _ _ _ => .targetCmd
  | .targetsCmd => .targetsCmd
  | .loginCmd _ _ => .loginCmd
  | .listCmd _ _ => .listCmd
  | .dashboardCmd => .dashboardCmd
  | .schedulerCmd => .schedulerCmd
  | .refreshCmd => .refreshCmd
  | .infoCmd => .infoCmd

/-- A flag or positional argument declared on a kingpin command. -/
structure FlagSpec where
  isArg : Bool
  name : String
  help : String
  short : Option Char
  dflt : Option String
  placeHolder : Option String
deriving DecidableEq, Repr

/-- A command declared on the kingpin application with `app.Command`. -/
structure CmdClause where
  name : String
  help : String
  aliases : List String
  hidden : Bool
  flags : List FlagSpec
deriving DecidableEq, Repr

/-- The state `registerCommands` writes: the kingpin application's commands, the
handler objects allocated so far (an object's address is its position), and the
package-level map `cmdIndex`. -/
structure Registry where
  app : List CmdClause
  heap : List CmdObj
  cmdIndex : String → Option Command

/-- `app.Command(...)` with its chained declarations: appends the clause. -/
def Registry.command (r : Registry) (c : CmdClause) : Registry :=
  { r with app := r.app ++ [c] }

/-- The statement `cmdIndex[verb] = &T{...}`: allocates a fresh object and stores the
pointer to it under `verb`. -/
def Registry.setNew (r : Registry) (verb : String) (obj : CmdObj) : Registry :=
  { r with
    heap := r.heap ++ [obj]
    cmdIndex := fun k => if k = verb then some ⟨obj.typ, r.heap.length⟩ else r.cmdIndex k }

/-- The statement `cmdIndex[verb] = cmdIndex[existing]`: the value read under
`existing` is stored under `verb`. At each use in `registerCommands` the key read
has just been written. -/
def Registry.setAlias (r : Registry) (verb existing : String) : Registry :=
  { r with cmdIndex := fun k => if k = verb then r.cmdIndex existing else r.cmdIndex k }

/-- A plain flag declaration. -/
def flag (name help : String) (short : Char) : FlagSpec :=
  { isArg := false, name := name, help := help, short := some short,
    dflt := none, placeHolder := none }

/-- A positional argument declaration. -/
def arg (name help : String) : FlagSpec :=
  { isArg := true, name := name, help := help, short := none,
    dflt := none, placeHolder := none }

/-- The function `registerCommands` (lines 17-68), statement by statement. -/
def registerCommands (r : Registry) : Registry :=
  let r := r.command
    { name := "server", help := "Start the doomsday server", aliases := [], hidden := false,
      flags := [{ flag "manifest" "The path to the server manifest" 'm' with
                  dflt := some "ddayconfig.yml" }] }
  let r := r.setNew "server" (.serverCmd ⟨"server", "manifest"⟩)
  let r := r.command
    { name := "target", help := "Manage targeted doomsday servers", aliases := [],
      hidden := false,
      flags := [arg "name" "The name of the target",
                arg "address" "The address to set for this target",
                flag "insecure" "Skip TLS cert validation for this backend" 'k',
                flag "delete" ("Forget about the doomsday target with " ++
                  "the given name. Delete will not fail if the target does not exist") 'd'] }
  let r := r.setNew "target"
    (.targetCmd ⟨"target", "name"⟩ ⟨"target", "address"⟩ ⟨"target", "insecure"⟩
      ⟨"target", "delete"⟩)
  let r := r.command
    { name := "targets", help := "Print out configured targets", aliases := [],
      hidden := false, flags := [] }
  let r := r.setNew "targets" .targetsCmd
  let r := r.command
    { name := "login", help := "Auth to the doomsday server", aliases := ["auth"],
      hidden := false,
      flags := [flag "username" "The username to log in as" 'u',
                flag "password" "The password to log in with" 'p'] }
  let r := r.setNew "login" (.loginCmd ⟨"login", "username"⟩ ⟨"login", "password"⟩)
  let r := r.setAlias "auth" "login"
  let r := r.command
    { name := "list", help := "List the contents of the server cache", aliases := [],
      hidden := false,
      flags := [{ flag "beyond"
                    "Restrict to certs that expire in longer than the given duration" 'b' with
                  placeHolder := some "1y2d3h4m" },
                { flag "within"
                    "Restrict to certs that expire in less than the given duration" 'w' with
                  placeHolder := some "1y2d3h4m" }] }
  let r := r.setNew "list" (.listCmd ⟨"list", "beyond"⟩ ⟨"list", "within"⟩)
  let r := r.command
    { name := "dashboard", help := "See your impending doom", aliases := ["dash"],
      hidden := false, flags := [] }
  let r := r.setNew "dashboard" .dashboardCmd
  let r := r.setAlias "dash" "dashboard"
  let r := r.command
    { name := "scheduler", help := "View the current state of the doomsday scheduler",
      aliases := ["sched"], hidden := true, flags := [] }
  let r := r.setNew "scheduler" .schedulerCmd
  let r := r.setAlias "sched" "scheduler"
  let r := r.command
    { name := "refresh", help := "Refresh the servers cache", aliases := [],
      hidden := false, flags := [] }
  let r := r.setNew "refresh" .refreshCmd
  let r := r.command
    { name := "info", help := "Get info about the currently targeted doomsday server",
      aliases := [], hidden := false, flags := [] }
  let r := r.setNew "info" .infoCmd
  r

/-! ## The process state and its collaborators -/

/-- The package-level variables `cliConf`, `target` and `client` (lines 71-73);
`none` is the nil pointer. -/
structure Globals where
  cliConf : Option CLIConfig
  target : Option CLITarget
  client : Option Client
deriving DecidableEq, Repr

/-- The values of the package-level variables when `main` starts: all nil. -/
def Globals.init : Globals :=
  { cliConf := none, target := none, client := none }

/-- An operand passed to a formatting call (`a ...interface{}`): a string or an
error value. -/
inductive Arg where
  | str (s : String)
  | err (e : GoError)
deriving DecidableEq, Repr

/-- The five places where `main` calls `bailWith`. -/
inductive Site where
  /-- Line 91: `loadConfig` failed. -/
  | loadConfig
  /-- Line 102: no current target. -/
  | noTarget
  /-- Line 107: the target address does not parse. -/
  | parseAddress
  /-- Line 134: the handler's `Run` failed. -/
  | handler
  /-- Line 139: `saveConfig` failed. -/
  | saveConfig
deriving DecidableEq, Repr

/-- How the process ends. -/
inductive Exit where
  /-- The function `main` returns. -/
  | returned
  /-- A call `bailWith(f, a...)` at `site`: the text is written to standard error,
  then `os.Exit(1)`. -/
  | bailed (site : Site) (f : String) (a : List Arg)
  /-- The `panic` of line 84. -/
  | panicked (msg : String)
  /-- The process ends inside the call of line 81, with this status. -/
  | ended (status : Nat)
deriving DecidableEq, Repr

/-- The exit status of the process: 0 when `main` returns, 1 from `os.Exit(1)`,
2 from an unrecovered panic, and the parser's own status when the process ends
inside line 81. -/
def Exit.code : Exit → Nat
  | .returned => 0
  | .bailed _ _ _ => 1
  | .panicked _ => 2
  | .ended status => status

/-- The calls `main` makes to its collaborators, in order. -/
inductive Event where
  | loadConfig (path : String)
  | currentTarget (conf : Option CLIConfig)
  | urlParse (address : String)
  | newClient (c : Client)
  | run (cmd : Command) (g : Globals)
  | saveConfig (conf : Option CLIConfig) (path : String)
deriving DecidableEq, Repr

/-- How the call `kingpin.MustParse(app.Parse(os.Args[1:]))` of line 81 ends. The
version and help flags set up at lines 77-79, the help command and a command line
with no verb print their text and end the process with status 0 inside the call; a
command line the parser rejects ends it with status 1; otherwise the call returns
the name of the selected command. -/
inductive Parsed where
  | verb (commandName : String)
  | ended (status : Nat)
deriving DecidableEq, Repr

/-- Everything `main` depends on that `main.go` does not define. -/
structure Env where
  /-- Contents of `cmdIndex`, the kingpin application and the heap before
  `registerCommands` runs. -/
  registry : Registry
  /-- The way the call `kingpin.MustParse(app.Parse(os.Args[1:]))` ends on the
  arguments of this invocation. -/
  parsed : Parsed
  /-- The value `*configPath`. -/
  configPath : String
  /-- The flag pointer `trace`: `none` when nil, else the value it points to. -/
  trace : Option Bool
  /-- The function `loadConfig`: returns `(*CLIConfig, error)`. -/
  loadConfig : String → Option CLIConfig × Option GoError
  /-- The method `(*CLIConfig).CurrentTarget`: nil when there is no current target. -/
  CurrentTarget : Option CLIConfig → Option CLITarget
  /-- The function `url.Parse`: a URL, or an error with a nil URL. -/
  urlParse : String → Except GoError URL
  /-- The method `Run` of the handler, which may read and write the package-level
  variables. -/
  Run : Command → Globals → Globals × Option GoError
  /-- The method `(*CLIConfig).saveConfig`. -/
  saveConfig : Option CLIConfig → String → Option GoError

/-- What a run of `main` produces. -/
structure Outcome where
  trace : List Event
  globals : Globals
  exit : Exit

/-- The function `bailWith` (lines 143-146): ends the process at this point. -/
def bailWith (tr : List Event) (g : Globals) (site : Site) (f : String) (a : List Arg) :
    Outcome :=
  { trace := tr, globals := g, exit := .bailed site f a }

/-- The text of line 102. -/
def noTargetMsg : String := "No doomsday server is currently targeted"

/-- The text of line 132. -/
def loginMsg : String := "Not authenticated. Please log in with `doomsday login'"

/-- The condition `trace != nil && *trace` of line 111. -/
def traceEnabled (trace : Option Bool) : Bool :=
  match trace with
  | some b => b
  | none => false

/-- The composite literal of lines 110-126. -/
def buildClient (u : URL) (t : CLITarget) (trace : Option Bool) : Client :=
  { URL := u
    Token := t.Token
    InsecureSkipVerify := t.SkipVerify
    Trace := if traceEnabled trace then some Writer.stderr else none }

/-- The type switch of lines 97-98: the handlers that run without a client. -/
def CmdType.noClient : CmdType → Bool
  | .serverCmd => true
  | .targetCmd => true
  | .targetsCmd => true
  | _ => false

/-- Lines 129-140: run the handler, report its failure or save the configuration. -/
def runAndSave (env : Env) (cmd : Command) (tr : List Event) (g : Globals) : Outcome :=
  let tr := tr ++ [Event.run cmd g]
  match env.Run cmd g with
  | (g, some err) =>
    -- the format of `fmt.Errorf` at line 132 has no verb: the new error's text is `loginMsg`
    let err := if err.is401 then GoError.other loginMsg else err
    bailWith tr g .handler err.Error []
  | (g, none) =>
    let tr := tr ++ [Event.saveConfig g.cliConf env.configPath]
    match env.saveConfig g.cliConf env.configPath with
    | some err => bailWith tr g .saveConfig "Could not save config: %s" [Arg.err err]
    | none => { trace := tr, globals := g, exit := .returned }

/-- Lines 97-127: build the client for the handlers that need one, then go on. -/
def clientStep (env : Env) (cmd : Command) (tr : List Event) (g : Globals) : Outcome :=
  if cmd.typ.noClient then runAndSave env cmd tr g
  else
    let tr := tr ++ [Event.currentTarget g.cliConf]
    let g := { g with target := env.CurrentTarget g.cliConf }
    match g.target with
    | none => bailWith tr g .noTarget noTargetMsg []
    | some t =>
      let tr := tr ++ [Event.urlParse t.Address]
      match env.urlParse t.Address with
      | .error _ => bailWith tr g .parseAddress "Could not parse target address as URL" []
      | .ok u =>
        let c := buildClient u t env.trace
        runAndSave env cmd (tr ++ [Event.newClient c]) { g with client := some c }

/-- Lines 87-95: load the configuration unless the handler is the server's. -/
def loadStep (env : Env) (cmd : Command) (tr : List Event) (g : Globals) : Outcome :=
  if cmd.typ = .serverCmd then clientStep env cmd tr g
  else
    let tr := tr ++ [Event.loadConfig env.configPath]
    match env.loadConfig env.configPath with
    | (c, some err) =>
      bailWith tr { g with cliConf := c } .loadConfig
        "Could not load CLI config from `%s': %s" [Arg.str env.configPath, Arg.err err]
    | (c, none) =>
      let g := { g with cliConf := c }
      let tr := tr ++ [Event.currentTarget g.cliConf]
      clientStep env cmd tr { g with target := env.CurrentTarget g.cliConf }

/-- The map `cmdIndex` as `main` reads it at line 82, after `registerCommands`. -/
def cmdIndex (env : Env) : String → Option Command :=
  (registerCommands env.registry).cmdIndex

/-- Lines 82-85: look the verb up in `cmdIndex`, panic when it is not there, and
go on with its handler. -/
def lookupStep (env : Env) (commandName : String) : Outcome :=
  match cmdIndex env commandName with
  | none =>
    { trace := [], globals := Globals.init,
      exit := .panicked ("Unregistered command " ++ commandName) }
  | some cmd => loadStep env cmd [] Globals.init

/-- The function `main` (lines 75-141): after `registerCommands` and the flag set-up,
the call of line 81 either ends the process or returns the verb to dispatch. -/
def main (env : Env) : Outcome :=
  match env.parsed with
  | .ended status => { trace := [], globals := Globals.init, exit := .ended status }
  | .verb commandName => lookupStep env commandName

/-! ## What `bailWith` writes

The text reaches the terminal through `fmt.Sprintf` and `ansi.Fprintf` (package
`github.com/starkandwayne/goutils/ansi`), both outside this repository. They are
modelled on the fragment `main.go` exercises; a directive outside the fragment
gives `none`. -/

/-- The text of an operand under the verbs `%s` and `%v`. -/
def Arg.text : Arg → String
  | .str s => s
  | .err e => e.Error

/-- The characters that open a flag, a width, a precision or an argument index
after a percent sign; directives using them are outside the modelled fragment. -/
def isModifier (c : Char) : Bool :=
  c = '#' || c = '+' || c = '-' || c = ' ' || c = '[' || c = '*' || c = '.' || c.isDigit

/-- The formatting loop of package `fmt` on operands that are strings or errors:
text is copied, `%%` yields a percent sign, `%s` and `%v` consume an operand, a
verb with no operand left yields `%!verb(MISSING)`, and a lone trailing percent
sign yields `%!(NOVERB)`. -/
def sprintfAux : List Char → List Arg → Option (List Char)
  | [], [] => some []
  | [], _ :: _ => none
  | c :: cs, a =>
    if c = '%' then
      match cs with
      | [] =>
        match a with
        | [] => some "%!(NOVERB)".toList
        | _ :: _ => none
      | v :: rest =>
        if v = '%' then (sprintfAux rest a).map (fun o => '%' :: o)
        else if isModifier v then none
        else
          match a with
          | [] =>
            (sprintfAux rest []).map (fun o => "%!".toList ++ [v] ++ "(MISSING)".toList ++ o)
          | x :: xs =>
            if v = 's' ∨ v = 'v' then (sprintfAux rest xs).map (fun o => x.text.toList ++ o)
            else none
    else (sprintfAux cs a).map (fun o => c :: o)

/-- The function `fmt.Sprintf` on the modelled fragment. -/
def fmtSprintf (format : String) (a : List Arg) : Option String :=
  (sprintfAux format.toList a).map String.mk

/-- The colour table of package `ansi`: the SGR parameters of a colour key. -/
def colorCode (k : Char) : Option String :=
  if k = 'k' then some "00;30" else if k = 'K' then some "01;30"
  else if k = 'r' then some "00;31" else if k = 'R' then some "01;31"
  else if k = 'g' then some "00;32" else if k = 'G' then some "01;32"
  else if k = 'y' then some "00;33" else if k = 'Y' then some "01;33"
  else if k = 'b' then some "00;34" else if k = 'B' then some "01;34"
  else if k = 'm' then some "00;35" else if k = 'M' then some "01;35"
  else if k = 'p' then some "00;35" else if k = 'P' then some "01;35"
  else if k = 'c' then some "00;36" else if k = 'C' then some "01;36"
  else if k = 'w' then some "00;37" else if k = 'W' then some "01;37"
  else none

/-- Replacement of every leftmost, shortest region `@K{...}` (a colour key, an opening
brace, text up to the first closing brace) by its content, wrapped in the escape
sequences of the colour when `colorable`. The flag is true inside a region. The
rainbow key `*` on a colour terminal is outside the modelled fragment. -/
def colorizeAux (colorable : Bool) : Bool → List Char → Option (List Char)
  | _, [] => some []
  | true, c :: cs =>
    if c = '}' then
      (colorizeAux colorable false cs).map
        (fun o => (if colorable then "\x1b[00m".toList else []) ++ o)
    else (colorizeAux colorable true cs).map (fun o => c :: o)
  | false, c :: k :: b :: body =>
    if c = '@' ∧ (k = '*' ∨ (colorCode k).isSome) ∧ b = '{' ∧ '}' ∈ body then
      if colorable then
        match colorCode k with
        | some code =>
          (colorizeAux colorable true body).map
            (fun o => "\x1b[".toList ++ code.toList ++ ['m'] ++ o)
        | none => none
      else colorizeAux colorable true body
    else (colorizeAux colorable false (k :: b :: body)).map (fun o => c :: o)
  | false, c :: cs => (colorizeAux colorable false cs).map (fun o => c :: o)

/-- The function `colorize` of package `ansi`. -/
def colorize (colorable : Bool) (s : String) : Option String :=
  (colorizeAux colorable false s.toList).map String.mk

/-- The bytes a call `bailWith(f, a...)` writes to standard error (line 144):
`ansi.Fprintf(os.Stderr, fmt.Sprintf("@R{%s}\n", f), a...)`, where `ansi.Fprintf`
formats its colourised format with `fmt`. -/
def bailOutput (colorable : Bool) (f : String) (a : List Arg) : Option String :=
  (fmtSprintf "@R\x7b%s\x7d\n" [Arg.str f]).bind fun format =>
    (colorize colorable format).bind fun format => fmtSprintf format a

/-- What the operator reads on standard error when `main` ends through `bailWith`. -/
def Outcome.reported (o : Outcome) (colorable : Bool) : Option String :=
  match o.exit with
  | .bailed _ f a => bailOutput colorable f a
  | _ => none

/-! ## Sample inputs -/

/-- Modelled from the spec: the method `CurrentTarget`, declared outside `main.go`,
returns the record named by the current-target name, or none if unset or dangling. -/
def currentTarget (conf : Option CLIConfig) : Option CLITarget :=
  match conf with
  | none => none
  | some c =>
    match c.Current with
    | none => none
    | some n => c.Targets.find? (fun t => t.Name = n)

/-- A registry before `registerCommands`: nothing declared, nothing allocated. -/
def emptyRegistry : Registry :=
  { app := [], heap := [], cmdIndex := fun _ => none }

/-- A target with a valid address and no token. -/
def prodTarget : CLITarget :=
  { Name := "prod", Address := "https://prod.example", Token := "", SkipVerify := true }

/-- A target whose address does not parse. -/
def badTarget : CLITarget :=
  { Name := "bad", Address := "://", Token := "", SkipVerify := false }

/-- A stand-in for `url.Parse` on the sample addresses. -/
def sampleParse (address : String) : Except GoError URL :=
  if address = "https://prod.example" then
    .ok { Scheme := "https", Host := "prod.example", Path := "" }
  else .error (.other "missing protocol scheme")

/-- A process invocation: `verb` on the persisted configuration `conf`, with a handler
that leaves the package-level variables alone and returns `result`. -/
def sampleEnv (verb : String) (conf : Option CLIConfig × Option GoError)
    (result : Option GoError) : Env :=
  { registry := emptyRegistry
    parsed := .verb verb
    configPath := ".dday"
    trace := some false
    loadConfig := fun _ => conf
    CurrentTarget := currentTarget
    urlParse := sampleParse
    Run := fun _ g => (g, result)
    saveConfig := fun _ _ => none }

/-- The invocation `doomsday --version`: the version flag of lines 77-78 prints the
version and ends the process with status 0 inside the call of line 81. -/
def versionEnv : Env :=
  { registry := emptyRegistry
    parsed := .ended 0
    configPath := ".dday"
    trace := none
    loadConfig := fun _ => (some { Current := none, Targets := [] }, none)
    CurrentTarget := currentTarget
    urlParse := sampleParse
    Run := fun _ g => (g, none)
    saveConfig := fun _ _ => none }

/-- A configuration with no target. -/
def emptyConfig : CLIConfig := { Current := none, Targets := [] }

/-- A configuration whose current target is `prodTarget`. -/
def prodConfig : CLIConfig := { Current := some "prod", Targets := [prodTarget] }

/-- A configuration whose current target is `badTarget`. -/
def badConfig : CLIConfig := { Current := some "bad", Targets := [badTarget] }

/-- Whether an event is a call of `Run`. -/
def Event.isRun : Event → Bool
  | .run _ _ => true
  | _ => false

/-- Whether an event is a call of `saveConfig`. -/
def Event.isSave : Event → Bool
  | .saveConfig _ _ => true
  | _ => false

/-- Whether an event is a call of `loadConfig`. -/
def Event.isLoad : Event → Bool
  | .loadConfig _ => true
  | _ => false

/-- Whether an event is the construction of a client. -/
def Event.isNewClient : Event → Bool
  | .newClient _ => true
  | _ => false

/-- An event that is neither a call of `Run`, nor of `saveConfig`, nor the
construction of a client. -/
def Event.isEarly (e : Event) : Bool :=
  !e.isRun && !e.isSave && !e.isNewClient

/-- An outcome that ends before line 129: a `bailWith` at one of the first three
sites, with no client built and only early events. -/
def EndsEarly (o : Outcome) : Prop :=
  ∃ tr g site f a, o = bailWith tr g site f a ∧ site ≠ .handler ∧ site ≠ .saveConfig ∧
    g.client = none ∧ ∀ e ∈ tr, e.isEarly = true

/-- An outcome that reaches line 129: the rest of the run is `runAndSave`, entered
with a trace that holds no call of `Run` and no call of `saveConfig`. -/
def ReachesRun (env : Env) (cmd : Command) (o : Outcome) : Prop :=
  ∃ tr g, o = runAndSave env cmd tr g ∧ ∀ e ∈ tr, e.isRun = false ∧ e.isSave = false

/-! ## The steps of a run, as the specification lists them -/

/-- The steps before the handler succeed and leave the package-level variables `g`:
nothing to do for the server's handler; otherwise the configuration loads, and
when a client is required a current target exists and its address parses. -/
def Prepared (env : Env) (cmd : Command) (g : Globals) : Prop :=
  if cmd.typ = .serverCmd then g = Globals.init
  else ∃ conf, env.loadConfig env.configPath = (conf, none) ∧
    if cmd.typ.noClient then
      g = { cliConf := conf, target := env.CurrentTarget conf, client := none }
    else ∃ t u, env.CurrentTarget conf = some t ∧ env.urlParse t.Address = .ok u ∧
      g = { cliConf := conf, target := some t, client := some (buildClient u t env.trace) }

/-- Every step succeeds: the verb is registered, the steps before the handler
succeed, the handler's `Run` succeeds, and `saveConfig` succeeds. -/
def StepsSucceed (env : Env) : Prop :=
  ∃ name cmd g g', env.parsed = .verb name ∧ cmdIndex env name = some cmd ∧
    Prepared env cmd g ∧
    env.Run cmd g = (g', none) ∧ env.saveConfig g'.cliConf env.configPath = none

/-- The verb is not registered. -/
def UnknownVerb (env : Env) : Prop :=
  ∃ name, env.parsed = .verb name ∧ cmdIndex env name = none

/-- The configuration is required and does not load. -/
def ConfigLoadError (env : Env) : Prop :=
  ∃ name cmd c err, env.parsed = .verb name ∧ cmdIndex env name = some cmd ∧
    cmd.typ ≠ .serverCmd ∧ env.loadConfig env.configPath = (c, some err)

/-- A client is required, the configuration loads, and there is no current target. -/
def NoTargetSelected (env : Env) : Prop :=
  ∃ name cmd conf, env.parsed = .verb name ∧ cmdIndex env name = some cmd ∧
    cmd.typ.noClient = false ∧
    env.loadConfig env.configPath = (conf, none) ∧ env.CurrentTarget conf = none

/-- A client is required and the current target's address does not parse. -/
def AddressParseError (env : Env) : Prop :=
  ∃ name cmd conf t err, env.parsed = .verb name ∧ cmdIndex env name = some cmd ∧
    cmd.typ.noClient = false ∧
    env.loadConfig env.configPath = (conf, none) ∧ env.CurrentTarget conf = some t ∧
    env.urlParse t.Address = .error err

/-- The handler's `Run` is reached and fails. -/
def HandlerFailure (env : Env) : Prop :=
  ∃ name cmd g g' err, env.parsed = .verb name ∧ cmdIndex env name = some cmd ∧
    Prepared env cmd g ∧ env.Run cmd g = (g', some err)

/-- The handler's `Run` succeeds and `saveConfig` fails. -/
def ConfigSaveError (env : Env) : Prop :=
  ∃ name cmd g g' err, env.parsed = .verb name ∧ cmdIndex env name = some cmd ∧
    Prepared env cmd g ∧
    env.Run cmd g = (g', none) ∧ env.saveConfig g'.cliConf env.configPath = some err

/-- One of the six failures of a run. -/
def StepFails (env : Env) : Prop :=
  UnknownVerb env ∨ ConfigLoadError env ∨ NoTargetSelected env ∨ AddressParseError env ∨
    HandlerFailure env ∨ ConfigSaveError env

/-! ## Structure of a run -/

theorem runAndSave_trace (env : Env) (cmd : Command) (tr : List Event) (g : Globals) :
    (runAndSave env cmd tr g).trace =
      tr ++ Event.run cmd g ::
        (if (env.Run cmd g).2 = none then
          [Event.saveConfig (env.Run cmd g).1.cliConf env.configPath] else []) := by
  unfold runAndSave bailWith
  split <;> rename_i h <;> simp [h]
  split <;> simp

theorem clientStep_shape (env : Env) (cmd : Command) (tr : List Event) (g : Globals)
    (hg : g.client = none) (htr : ∀ e ∈ tr, e.isEarly = true) :
    EndsEarly (clientStep env cmd tr g) ∨ ReachesRun env cmd (clientStep env cmd tr g) := by
  have hq : ∀ e ∈ tr, e.isRun = false ∧ e.isSave = false := by
    intro e he
    have := htr e he
    simp [Event.isEarly] at this
    exact ⟨this.1.1, this.1.2⟩
  unfold clientStep
  by_cases hn : cmd.typ.noClient = true
  · simp only [hn, if_true]
    exact Or.inr ⟨tr, g, rfl, hq⟩
  · simp only [hn]
    cases ht : env.CurrentTarget g.cliConf with
    | none =>
      refine Or.inl ⟨_, _, _, _, _, rfl, by decide, by decide, hg, ?_⟩
      intro e he
      rcases List.mem_append.1 he with h | h
      · exact htr e h
      · rw [List.mem_singleton.1 h]; rfl
    | some t =>
      dsimp only
      cases hu : env.urlParse t.Address with
      | error err =>
        refine Or.inl ⟨_, _, _, _, _, rfl, by decide, by decide, hg, ?_⟩
        intro e he
        rcases List.mem_append.1 he with h | h
        · rcases List.mem_append.1 h with h | h
          · exact htr e h
          · rw [List.mem_singleton.1 h]; rfl
        · rw [List.mem_singleton.1 h]; rfl
      | ok u =>
        refine Or.inr ⟨_, _, rfl, ?_⟩
        intro e he
        rcases List.mem_append.1 he with h | h
        · rcases List.mem_append.1 h with h | h
          · rcases List.mem_append.1 h with h | h
            · exact hq e h
            · rw [List.mem_singleton.1 h]; exact ⟨rfl, rfl⟩
          · rw [List.mem_singleton.1 h]; exact ⟨rfl, rfl⟩
        · rw [List.mem_singleton.1 h]; exact ⟨rfl, rfl⟩

theorem loadStep_shape (env : Env) (cmd : Command) :
    EndsEarly (loadStep env cmd [] Globals.init) ∨
      ReachesRun env cmd (loadStep env cmd [] Globals.init) := by
  unfold loadStep
  by_cases hs : cmd.typ = .serverCmd
  · simp only [hs, if_true]
    exact clientStep_shape env cmd [] Globals.init rfl (by simp)
  · simp only [hs, if_false]
    cases hl : env.loadConfig env.configPath with
    | mk c e =>
      cases e with
      | some err =>
        refine Or.inl ⟨_, _, _, _, _, rfl, by decide, by decide, rfl, ?_⟩
        intro e he
        rw [List.nil_append, List.mem_singleton] at he
        rw [he]; rfl
      | none =>
        dsimp only
        apply clientStep_shape
        · rfl
        · intro e he
          rcases List.mem_append.1 he with h | h
          · rw [List.nil_append, List.mem_singleton] at h
            rw [h]; rfl
          · rw [List.mem_singleton.1 h]; rfl

/-- When line 81 returns a verb, `main` goes on with the lookup of line 82. -/
theorem main_of_verb (env : Env) (name : String) (h : env.parsed = .verb name) :
    main env = lookupStep env name := by
  unfold main; rw [h]

/-- Every run of `main` either ends inside the parser's call, or panics on an
unregistered verb, or bails out before the handler, or reaches line 129. -/
theorem main_shape (env : Env) :
    (∃ status, env.parsed = .ended status ∧
      main env = Outcome.mk [] Globals.init (.ended status)) ∨
    (∃ name, env.parsed = .verb name ∧ cmdIndex env name = none ∧
      main env = Outcome.mk [] Globals.init (.panicked ("Unregistered command " ++ name))) ∨
    (∃ name cmd, env.parsed = .verb name ∧ cmdIndex env name = some cmd ∧
      (EndsEarly (main env) ∨ ReachesRun env cmd (main env))) := by
  cases hp : env.parsed with
  | ended status =>
    refine Or.inl ⟨status, rfl, ?_⟩
    unfold main; rw [hp]
  | verb name =>
    rw [main_of_verb env name hp]
    unfold lookupStep
    cases h : cmdIndex env name with
    | none => exact Or.inr (Or.inl ⟨name, rfl, h, rfl⟩)
    | some cmd => exact Or.inr (Or.inr ⟨name, cmd, rfl, h, loadStep_shape env cmd⟩)

/-- A call of `Run` recorded in the trace of `main` is the one of line 129: line 81
returned a verb that resolved to that handler, and the rest of the run is
`runAndSave` on those package-level variables. -/
theorem run_mem_main (env : Env) (cmd : Command) (g : Globals)
    (h : Event.run cmd g ∈ (main env).trace) :
    (∃ name, env.parsed = .verb name ∧ cmdIndex env name = some cmd) ∧
      ∃ tr, main env = runAndSave env cmd tr g ∧
        ∀ e ∈ tr, e.isRun = false ∧ e.isSave = false := by
  rcases main_shape env with ⟨_, _, hm⟩ | ⟨_, _, _, hm⟩ | ⟨name, cmd', hv, hcmd, hE | hR⟩
  · rw [hm] at h; simp at h
  · rw [hm] at h; simp at h
  · obtain ⟨tr, g', site, f, a, hm, _, _, _, htr⟩ := hE
    rw [hm] at h
    have := htr _ h
    simp [Event.isEarly, Event.isRun] at this
  · obtain ⟨tr, g', hm, htr⟩ := hR
    rw [hm, runAndSave_trace] at h
    rcases List.mem_append.1 h with h | h
    · have := (htr _ h).1
      simp [Event.isRun] at this
    · rcases List.mem_cons.1 h with h | h
      · injection h with h1 h2
        subst h1; subst h2
        exact ⟨⟨name, hv, hcmd⟩, tr, hm, htr⟩
      · split at h
        · rw [List.mem_singleton] at h; cases h
        · simp at h

/-- Once line 129 is reached, the process ends by returning or at one of the last
two `bailWith` sites. -/
theorem runAndSave_exit (env : Env) (cmd : Command) (tr : List Event) (g : Globals) :
    (runAndSave env cmd tr g).exit = .returned ∨
      (∃ f a, (runAndSave env cmd tr g).exit = .bailed .handler f a) ∨
      (∃ f a, (runAndSave env cmd tr g).exit = .bailed .saveConfig f a) := by
  unfold runAndSave bailWith
  cases h : env.Run cmd g with
  | mk g' r =>
    cases r with
    | some err => exact Or.inr (Or.inl ⟨_, _, rfl⟩)
    | none =>
      cases h2 : env.saveConfig g'.cliConf env.configPath with
      | some err => simp [h2]
      | none => simp [h2]

theorem runAndSave_exit_ne (env : Env) (cmd : Command) (tr : List Event) (g : Globals)
    (f : String) (a : List Arg) :
    (runAndSave env cmd tr g).exit ≠ .bailed .noTarget f a := by
  rcases runAndSave_exit env cmd tr g with h | ⟨f', a', h⟩ | ⟨f', a', h⟩ <;> rw [h] <;> simp

/-! ## Claims -/

/-- C5: after `registerCommands`, each alias verb holds the very handler value of
its primary verb (same dynamic type, same address): `auth` and `login` both
hold the `loginCmd` object allocated fourth, `dash` and `dashboard` the
`dashboardCmd` object allocated sixth, `sched` and `scheduler` the `schedulerCmd`
object allocated seventh; and those addresses hold objects of these types. -/
theorem registerCommands_alias_identity (r : Registry) :
    (registerCommands r).cmdIndex "login" = some ⟨.loginCmd, r.heap.length + 3⟩ ∧
    (registerCommands r).cmdIndex "auth" = (registerCommands r).cmdIndex "login" ∧
    (registerCommands r).cmdIndex "dashboard" = some ⟨.dashboardCmd, r.heap.length + 5⟩ ∧
    (registerCommands r).cmdIndex "dash" = (registerCommands r).cmdIndex "dashboard" ∧
    (registerCommands r).cmdIndex "scheduler" = some ⟨.schedulerCmd, r.heap.length + 6⟩ ∧
    (registerCommands r).cmdIndex "sched" = (registerCommands r).cmdIndex "scheduler" ∧
    (registerCommands r).heap[r.heap.length + 3]? =
      some (.loginCmd ⟨"login", "username"⟩ ⟨"login", "password"⟩) ∧
    (registerCommands r).heap[r.heap.length + 5]? = some .dashboardCmd ∧
    (registerCommands r).heap[r.heap.length + 6]? = some .schedulerCmd := by
  have hheap : (registerCommands r).heap = r.heap ++
      [.serverCmd ⟨"server", "manifest"⟩,
       .targetCmd ⟨"target", "name"⟩ ⟨"target", "address"⟩ ⟨"target", "insecure"⟩
         ⟨"target", "delete"⟩,
       .targetsCmd, .loginCmd ⟨"login", "username"⟩ ⟨"login", "password"⟩,
       .listCmd ⟨"list", "beyond"⟩ ⟨"list", "within"⟩,
       .dashboardCmd, .schedulerCmd, .refreshCmd, .infoCmd] := by
    simp [registerCommands, Registry.setNew, Registry.setAlias, Registry.command]
  have hget : ∀ (l : List CmdObj) (n : Nat),
      (r.heap ++ l)[r.heap.length + n]? = l[n]? := by
    intro l n
    rw [List.getElem?_append_right (Nat.le_add_right _ _), Nat.add_sub_cancel_left]
  refine ⟨?_, ?_, ?_, ?_, ?_, ?_, ?_, ?_, ?_⟩
  · simp [registerCommands, Registry.setNew, Registry.setAlias, Registry.command, CmdObj.typ]
  · simp [registerCommands, Registry.setNew, Registry.setAlias, Registry.command, CmdObj.typ]
  · simp [registerCommands, Registry.setNew, Registry.setAlias, Registry.command, CmdObj.typ]
  · simp [registerCommands, Registry.setNew, Registry.setAlias, Registry.command, CmdObj.typ]
  · simp [registerCommands, Registry.setNew, Registry.setAlias, Registry.command, CmdObj.typ]
  · simp [registerCommands, Registry.setNew, Registry.setAlias, Registry.command, CmdObj.typ]
  · rw [hheap, hget]; rfl
  · rw [hheap, hget]; rfl
  · rw [hheap, hget]; rfl

/-- C1: when line 81 returns a registered verb and the configuration loads, `main`
ends at the `bailWith` of line 102, with the text "No doomsday server is currently
targeted", exactly when the handler is none of the server, target and targets
handlers and `CurrentTarget()` is nil; and then no `Run` was called and no client
was built. -/
theorem noTargetSelected_iff (env : Env) (name : String) (cmd : Command)
    (conf : Option CLIConfig)
    (hverb : env.parsed = .verb name)
    (hcmd : cmdIndex env name = some cmd)
    (hload : env.loadConfig env.configPath = (conf, none)) :
    ((main env).exit = .bailed .noTarget "No doomsday server is currently targeted" [] ↔
      (cmd.typ ≠ .serverCmd ∧ cmd.typ ≠ .targetCmd ∧ cmd.typ ≠ .targetsCmd ∧
        env.CurrentTarget conf = none)) ∧
    ((∃ f a, (main env).exit = .bailed .noTarget f a) →
      (main env).exit = .bailed .noTarget "No doomsday server is currently targeted" [] ∧
      (∀ e ∈ (main env).trace, e.isRun = false ∧ e.isNewClient = false) ∧
      (main env).globals.client = none) := by
  have hmain : main env = loadStep env cmd [] Globals.init := by
    rw [main_of_verb env name hverb]; unfold lookupStep; rw [hcmd]
  have hnc : cmd.typ.noClient = false ↔
      (cmd.typ ≠ .serverCmd ∧ cmd.typ ≠ .targetCmd ∧ cmd.typ ≠ .targetsCmd) := by
    cases cmd.typ <;> simp [CmdType.noClient]
  have key : ((main env).exit = .bailed .noTarget noTargetMsg [] ∧
        (∀ e ∈ (main env).trace, e.isRun = false ∧ e.isNewClient = false) ∧
        (main env).globals.client = none ∧
        cmd.typ.noClient = false ∧ env.CurrentTarget conf = none) ∨
      ((∀ f a, (main env).exit ≠ .bailed .noTarget f a) ∧
        ¬ (cmd.typ.noClient = false ∧ env.CurrentTarget conf = none)) := by
    rw [hmain]
    unfold loadStep clientStep
    by_cases hs : cmd.typ = .serverCmd
    · have hn : cmd.typ.noClient = true := by rw [hs]; rfl
      simp only [hs, hn, if_true]
      exact Or.inr ⟨fun f a => runAndSave_exit_ne _ _ _ _ f a, by simp [CmdType.noClient]⟩
    · simp only [hs, if_false, hload]
      by_cases hn : cmd.typ.noClient = true
      · simp only [hn, if_true]
        exact Or.inr ⟨fun f a => runAndSave_exit_ne _ _ _ _ f a, by simp⟩
      · simp only [hn]
        cases ht : env.CurrentTarget conf with
        | none =>
          left
          refine ⟨rfl, ?_, rfl, by simp [hn], rfl⟩
          intro e he
          simp [bailWith] at he
          rcases he with rfl | rfl | rfl <;> exact ⟨rfl, rfl⟩
        | some t =>
          right
          refine ⟨?_, by simp⟩
          intro f a
          cases hu : env.urlParse t.Address with
          | error err => simp [hu, bailWith]
          | ok u =>
            simp only [Bool.false_eq_true, if_false, hu]
            exact runAndSave_exit_ne _ _ _ _ f a
  have hnc' : (cmd.typ ≠ .serverCmd ∧ cmd.typ ≠ .targetCmd ∧ cmd.typ ≠ .targetsCmd ∧
      env.CurrentTarget conf = none) ↔
      (cmd.typ.noClient = false ∧ env.CurrentTarget conf = none) := by
    rw [hnc]; tauto
  rw [hnc']
  change ((main env).exit = .bailed .noTarget noTargetMsg [] ↔ _) ∧
    (_ → (main env).exit = .bailed .noTarget noTargetMsg [] ∧ _)
  rcases key with ⟨h1, h2, h3, h4, h5⟩ | ⟨h1, h2⟩
  · exact ⟨⟨fun _ => ⟨h4, h5⟩, fun _ => h1⟩, fun _ => ⟨h1, h2, h3⟩⟩
  · refine ⟨⟨fun h => absurd h (h1 _ _), fun h => absurd h h2⟩, ?_⟩
    rintro ⟨f, a, h⟩
    exact absurd h (h1 f a)

/-- Scenario 1 of the spec: an empty configuration and the verb `list`. -/
theorem noTargetSelected_iff_witness :
    cmdIndex (sampleEnv "list" (some emptyConfig, none) none) "list" = some ⟨.listCmd, 4⟩ ∧
    (main (sampleEnv "list" (some emptyConfig, none) none)).exit =
      .bailed .noTarget "No doomsday server is currently targeted" [] ∧
    (main (sampleEnv "list" (some emptyConfig, none) none)).trace =
      [.loadConfig ".dday", .currentTarget (some emptyConfig),
       .currentTarget (some emptyConfig)] :=
  ⟨rfl,
   (noTargetSelected_iff (sampleEnv "list" (some emptyConfig, none) none) "list"
      ⟨.listCmd, 4⟩ (some emptyConfig) rfl rfl rfl).1.2
      ⟨by decide, by decide, by decide, rfl⟩,
   rfl⟩

/-- C2: whenever the handler's `Run` fails with an error of type
`*doomsday.ErrUnauthorized`, whatever its text, `main` ends at the `bailWith` of
line 134 with the fixed login instruction as the whole message and no operand, the
bytes written to standard error are that instruction and a newline (between the
bold-red escape sequences on a colour terminal), and the exit status is 1. -/
theorem unauthorized_reports_login (env : Env) (cmd : Command) (g g' : Globals) (msg : String)
    (hrun : Event.run cmd g ∈ (main env).trace)
    (hfail : env.Run cmd g = (g', some (.unauthorized msg))) :
    (main env).exit =
      .bailed .handler "Not authenticated. Please log in with `doomsday login'" [] ∧
    (main env).reported false =
      some "Not authenticated. Please log in with `doomsday login'\n" ∧
    (main env).reported true =
      some "\x1b[01;31mNot authenticated. Please log in with `doomsday login'\x1b[00m\n" ∧
    (main env).exit.code = 1 := by
  obtain ⟨_, tr, hm, _⟩ := run_mem_main env cmd g hrun
  have hexit : (main env).exit = .bailed .handler loginMsg [] := by
    rw [hm]; unfold runAndSave bailWith; rw [hfail]; rfl
  refine ⟨hexit, ?_, ?_, ?_⟩
  · unfold Outcome.reported; rw [hexit]; rfl
  · unfold Outcome.reported; rw [hexit]; rfl
  · rw [hexit]; rfl

/-- Scenario 2 of the spec: one target, a valid address, no token, the verb `info`,
and the remote answering unauthorized. -/
theorem unauthorized_reports_login_witness :
    (main (sampleEnv "info" (some prodConfig, none) (some (.unauthorized "401")))).exit =
      .bailed .handler "Not authenticated. Please log in with `doomsday login'" [] ∧
    (main (sampleEnv "info" (some prodConfig, none) (some (.unauthorized "401")))).exit.code
      = 1 :=
  have h := unauthorized_reports_login
    (sampleEnv "info" (some prodConfig, none) (some (.unauthorized "401"))) ⟨.infoCmd, 8⟩
    { cliConf := some prodConfig, target := some prodTarget,
      client := some (buildClient ⟨"https", "prod.example", ""⟩ prodTarget (some false)) }
    _ "401" (by decide) rfl
  ⟨h.1, h.2.2.2⟩

/-- C3: whenever the handler's `Run` returns a failure, the trace of `main` holds no
call of `saveConfig`, and the process ends at the `bailWith` of line 134 with exit
status 1. -/
theorem failed_run_never_saves (env : Env) (cmd : Command) (g g' : Globals) (err : GoError)
    (hrun : Event.run cmd g ∈ (main env).trace)
    (hfail : env.Run cmd g = (g', some err)) :
    (∀ e ∈ (main env).trace, e.isSave = false) ∧
    (∀ conf path, Event.saveConfig conf path ∉ (main env).trace) ∧
    (∃ f, (main env).exit = .bailed .handler f []) ∧
    (main env).exit.code = 1 := by
  obtain ⟨_, tr, hm, htr⟩ := run_mem_main env cmd g hrun
  have hns : ∀ e ∈ (main env).trace, e.isSave = false := by
    intro e he
    rw [hm, runAndSave_trace, hfail] at he
    simp only [reduceCtorEq, if_false, List.mem_append, List.mem_singleton] at he
    rcases he with h | rfl
    · exact (htr e h).2
    · rfl
  have hexit : ∃ f, (main env).exit = .bailed .handler f [] := by
    rw [hm]; unfold runAndSave bailWith; rw [hfail]; exact ⟨_, rfl⟩
  refine ⟨hns, ?_, hexit, ?_⟩
  · intro conf path h
    have := hns _ h
    simp [Event.isSave] at this
  · obtain ⟨f, hf⟩ := hexit
    rw [hf]; rfl

/-- A failing `target` command on a loaded configuration: nothing is saved. -/
theorem failed_run_never_saves_witness :
    (∀ e ∈ (main (sampleEnv "target" (some prodConfig, none)
        (some (.other "no such target")))).trace, e.isSave = false) ∧
    (main (sampleEnv "target" (some prodConfig, none)
        (some (.other "no such target")))).exit.code = 1 :=
  have h := failed_run_never_saves
    (sampleEnv "target" (some prodConfig, none) (some (.other "no such target")))
    ⟨.targetCmd, 1⟩
    { cliConf := some prodConfig, target := some prodTarget, client := none }
    _ (.other "no such target") (by decide) rfl
  ⟨h.1, h.2.2.2⟩

/-- C4: whenever the handler's `Run` returns success, the trace of `main` ends with
that call of `Run` followed by one call of `saveConfig`, on the `cliConf` the handler
left behind and on `*configPath`; nothing before it is a call of `saveConfig`, so
the trace holds exactly one. -/
theorem successful_run_saves_once (env : Env) (cmd : Command) (g g' : Globals)
    (hrun : Event.run cmd g ∈ (main env).trace)
    (hok : env.Run cmd g = (g', none)) :
    (∃ tr, (main env).trace =
        tr ++ [Event.run cmd g, Event.saveConfig g'.cliConf env.configPath] ∧
      ∀ e ∈ tr, e.isSave = false) ∧
    (main env).trace.countP Event.isSave = 1 := by
  obtain ⟨_, tr, hm, htr⟩ := run_mem_main env cmd g hrun
  have htrace : (main env).trace =
      tr ++ [Event.run cmd g, Event.saveConfig g'.cliConf env.configPath] := by
    rw [hm, runAndSave_trace, hok]; simp
  refine ⟨⟨tr, htrace, fun e he => (htr e he).2⟩, ?_⟩
  rw [htrace, List.countP_append]
  have h0 : tr.countP Event.isSave = 0 := by
    rw [List.countP_eq_zero]
    intro e he
    simp [(htr e he).2]
  rw [h0]; rfl

/-- A successful `targets` command: the configuration is saved although the handler
did not change it. -/
theorem successful_run_saves_once_witness :
    (main (sampleEnv "targets" (some prodConfig, none) none)).trace =
      [.loadConfig ".dday", .currentTarget (some prodConfig),
       .run ⟨.targetsCmd, 2⟩ ⟨some prodConfig, some prodTarget, none⟩,
       .saveConfig (some prodConfig) ".dday"] ∧
    (main (sampleEnv "targets" (some prodConfig, none) none)).trace.countP Event.isSave = 1 :=
  ⟨rfl,
   (successful_run_saves_once (sampleEnv "targets" (some prodConfig, none) none)
      ⟨.targetsCmd, 2⟩ ⟨some prodConfig, some prodTarget, none⟩ _ (by decide) rfl).2⟩

/-- When the verb resolves to a handler that needs a client, the configuration loads,
a current target exists and its address parses, `main` reaches line 129 after
building exactly the client of lines 115-126. -/
theorem main_with_client (env : Env) (name : String) (cmd : Command)
    (conf : Option CLIConfig) (t : CLITarget) (u : URL)
    (hverb : env.parsed = .verb name)
    (hcmd : cmdIndex env name = some cmd)
    (hneeds : cmd.typ.noClient = false)
    (hload : env.loadConfig env.configPath = (conf, none))
    (htarget : env.CurrentTarget conf = some t)
    (hparse : env.urlParse t.Address = .ok u) :
    main env = runAndSave env cmd
      [.loadConfig env.configPath, .currentTarget conf, .currentTarget conf,
       .urlParse t.Address, .newClient (buildClient u t env.trace)]
      { cliConf := conf, target := some t, client := some (buildClient u t env.trace) } := by
  have hs : cmd.typ ≠ .serverCmd := by
    intro h; rw [h] at hneeds; cases hneeds
  rw [main_of_verb env name hverb]
  unfold lookupStep
  rw [hcmd]
  unfold loadStep clientStep
  simp [hs, hneeds, hload, htarget, hparse, Globals.init]

/-- The client built on such a run, read off the trace. -/
theorem newClient_mem_main (env : Env) (name : String) (cmd : Command)
    (conf : Option CLIConfig) (t : CLITarget) (u : URL)
    (hverb : env.parsed = .verb name)
    (hcmd : cmdIndex env name = some cmd)
    (hneeds : cmd.typ.noClient = false)
    (hload : env.loadConfig env.configPath = (conf, none))
    (htarget : env.CurrentTarget conf = some t)
    (hparse : env.urlParse t.Address = .ok u) (c : Client) :
    Event.newClient c ∈ (main env).trace ↔ c = buildClient u t env.trace := by
  rw [main_with_client env name cmd conf t u hverb hcmd hneeds hload htarget hparse,
    runAndSave_trace]
  constructor
  · intro h
    simp only [List.mem_append, List.mem_cons, List.mem_singleton, List.not_mem_nil,
      reduceCtorEq, false_or, or_false, Event.newClient.injEq] at h
    rcases h with h | h
    · exact h
    · split at h <;> simp at h
  · rintro rfl
    simp

/-- C6: for two invocations in which line 81 returns a registered verb and
whose current target is the same record `t`, with an
address that parses to `u`, and whose trace flags are arbitrary: the client each one
builds (the only one in its trace, and the one its handler runs with) has URL `u`,
token `t.Token`, `InsecureSkipVerify` equal to `t.SkipVerify`, and a trace writer
exactly when its own trace flag is set; so the two clients agree on URL, token and
TLS policy. -/
theorem client_from_target_and_trace (env₁ env₂ : Env) (name₁ name₂ : String)
    (cmd₁ cmd₂ : Command)
    (conf₁ conf₂ : Option CLIConfig) (t : CLITarget) (u : URL)
    (hverb₁ : env₁.parsed = .verb name₁)
    (hcmd₁ : cmdIndex env₁ name₁ = some cmd₁)
    (hneeds₁ : cmd₁.typ.noClient = false)
    (hload₁ : env₁.loadConfig env₁.configPath = (conf₁, none))
    (htarget₁ : env₁.CurrentTarget conf₁ = some t)
    (hparse₁ : env₁.urlParse t.Address = .ok u)
    (hverb₂ : env₂.parsed = .verb name₂)
    (hcmd₂ : cmdIndex env₂ name₂ = some cmd₂)
    (hneeds₂ : cmd₂.typ.noClient = false)
    (hload₂ : env₂.loadConfig env₂.configPath = (conf₂, none))
    (htarget₂ : env₂.CurrentTarget conf₂ = some t)
    (hparse₂ : env₂.urlParse t.Address = .ok u) :
    ∃ c₁ c₂ : Client,
      (∀ c, Event.newClient c ∈ (main env₁).trace ↔ c = c₁) ∧
      (∀ c, Event.newClient c ∈ (main env₂).trace ↔ c = c₂) ∧
      Event.run cmd₁ { cliConf := conf₁, target := some t, client := some c₁ }
        ∈ (main env₁).trace ∧
      Event.run cmd₂ { cliConf := conf₂, target := some t, client := some c₂ }
        ∈ (main env₂).trace ∧
      c₁.URL = u ∧ c₁.Token = t.Token ∧ c₁.InsecureSkipVerify = t.SkipVerify ∧
      (c₁.Trace.isSome = true ↔ (env₁.trace = some true)) ∧
      (c₂.Trace.isSome = true ↔ (env₂.trace = some true)) ∧
      c₁.URL = c₂.URL ∧ c₁.Token = c₂.Token ∧
      c₁.InsecureSkipVerify = c₂.InsecureSkipVerify := by
  have htrace : ∀ tr : Option Bool,
      ((buildClient u t tr).Trace.isSome = true ↔ tr = some true) := by
    intro tr
    rcases tr with _ | _ | _ <;> simp [buildClient, traceEnabled]
  refine ⟨buildClient u t env₁.trace, buildClient u t env₂.trace,
    newClient_mem_main env₁ name₁ cmd₁ conf₁ t u hverb₁ hcmd₁ hneeds₁ hload₁ htarget₁
      hparse₁,
    newClient_mem_main env₂ name₂ cmd₂ conf₂ t u hverb₂ hcmd₂ hneeds₂ hload₂ htarget₂
      hparse₂,
    ?_, ?_, rfl, rfl, rfl, htrace _, htrace _, rfl, rfl, rfl⟩
  · rw [main_with_client env₁ name₁ cmd₁ conf₁ t u hverb₁ hcmd₁ hneeds₁ hload₁ htarget₁
      hparse₁, runAndSave_trace]
    simp
  · rw [main_with_client env₂ name₂ cmd₂ conf₂ t u hverb₂ hcmd₂ hneeds₂ hload₂ htarget₂
      hparse₂, runAndSave_trace]
    simp

/-- The verb `info` on the same target, once without and once with tracing. -/
theorem client_from_target_and_trace_witness :
    ∃ c₁ c₂ : Client,
      (∀ c, Event.newClient c ∈
        (main (sampleEnv "info" (some prodConfig, none) none)).trace ↔ c = c₁) ∧
      (∀ c, Event.newClient c ∈
        (main { sampleEnv "info" (some prodConfig, none) none with
                trace := some true }).trace ↔ c = c₂) ∧
      c₁.Trace = none ∧ c₂.Trace = some Writer.stderr ∧
      c₁.URL = c₂.URL ∧ c₁.Token = c₂.Token ∧
      c₁.InsecureSkipVerify = c₂.InsecureSkipVerify := by
  obtain ⟨c₁, c₂, h₁, h₂, -, -, -, -, -, -, -, h₃, h₄, h₅⟩ :=
    client_from_target_and_trace
      (sampleEnv "info" (some prodConfig, none) none)
      { sampleEnv "info" (some prodConfig, none) none with trace := some true }
      "info" "info" ⟨.infoCmd, 8⟩ ⟨.infoCmd, 8⟩ (some prodConfig) (some prodConfig)
      prodTarget ⟨"https", "prod.example", ""⟩ rfl rfl rfl rfl rfl rfl rfl rfl rfl rfl rfl rfl
  have e₁ := (h₁ (buildClient ⟨"https", "prod.example", ""⟩ prodTarget (some false))).1
    (by decide)
  have e₂ := (h₂ (buildClient ⟨"https", "prod.example", ""⟩ prodTarget (some true))).1
    (by decide)
  exact ⟨c₁, c₂, h₁, h₂, by rw [← e₁]; rfl, by rw [← e₂]; rfl, h₃, h₄, h₅⟩

/-- C10: when line 81 returns a verb: if the verb is not in `cmdIndex`, or
`loadConfig` fails for a verb other than the server's, or the current target's
address fails to parse for a verb that needs a client, then the trace of `main`
holds no call of `Run`, no client and no call of `saveConfig`, the variable
`client` is still nil, and the exit status is not 0. -/
theorem failed_precondition_skips_run (env : Env) (name : String)
    (hverb : env.parsed = .verb name)
    (h : cmdIndex env name = none ∨
      (∃ cmd c err, cmdIndex env name = some cmd ∧ cmd.typ ≠ .serverCmd ∧
        env.loadConfig env.configPath = (c, some err)) ∨
      (∃ cmd conf t err, cmdIndex env name = some cmd ∧
        cmd.typ.noClient = false ∧ env.loadConfig env.configPath = (conf, none) ∧
        env.CurrentTarget conf = some t ∧ env.urlParse t.Address = .error err)) :
    (∀ e ∈ (main env).trace, e.isRun = false ∧ e.isNewClient = false ∧ e.isSave = false) ∧
    (main env).globals.client = none ∧
    (main env).exit.code ≠ 0 := by
  rcases h with h | ⟨cmd, c, err, hcmd, hs, hl⟩ | ⟨cmd, conf, t, err, hcmd, hn, hl, ht, hu⟩
  · have hm : main env =
        Outcome.mk [] Globals.init (.panicked ("Unregistered command " ++ name)) := by
      rw [main_of_verb env name hverb]; unfold lookupStep; rw [h]
    rw [hm]
    exact ⟨by simp, rfl, by simp [Exit.code]⟩
  · have hm : main env = bailWith [.loadConfig env.configPath]
        { Globals.init with cliConf := c } .loadConfig
        "Could not load CLI config from `%s': %s" [Arg.str env.configPath, Arg.err err] := by
      rw [main_of_verb env name hverb]; unfold lookupStep; rw [hcmd]; unfold loadStep
      simp [hs, hl]
    rw [hm]
    refine ⟨?_, rfl, by simp [bailWith, Exit.code]⟩
    intro e he
    simp only [bailWith, List.mem_singleton] at he
    rw [he]; exact ⟨rfl, rfl, rfl⟩
  · have hs : cmd.typ ≠ .serverCmd := by
      intro h; rw [h] at hn; cases hn
    have hm : main env = bailWith
        [.loadConfig env.configPath, .currentTarget conf, .currentTarget conf,
         .urlParse t.Address]
        { cliConf := conf, target := some t, client := none } .parseAddress
        "Could not parse target address as URL" [] := by
      rw [main_of_verb env name hverb]; unfold lookupStep; rw [hcmd]
      unfold loadStep clientStep
      simp [hs, hn, hl, ht, hu, Globals.init]
    rw [hm]
    refine ⟨?_, rfl, by simp [bailWith, Exit.code]⟩
    intro e he
    simp only [bailWith, List.mem_cons, List.mem_singleton, List.not_mem_nil, or_false] at he
    rcases he with rfl | rfl | rfl | rfl <;> exact ⟨rfl, rfl, rfl⟩

/-- The three failed preconditions on sample invocations: an unknown verb, a
configuration that does not load, and a target address that does not parse. -/
theorem failed_precondition_skips_run_witness :
    (main (sampleEnv "certs" (some prodConfig, none) none)).trace = [] ∧
    (main (sampleEnv "certs" (some prodConfig, none) none)).exit.code ≠ 0 ∧
    (main (sampleEnv "list" (none, some (.other "bad yaml")) none)).trace
      = [.loadConfig ".dday"] ∧
    (main (sampleEnv "list" (none, some (.other "bad yaml")) none)).exit.code ≠ 0 ∧
    (∀ e ∈ (main (sampleEnv "list" (some badConfig, none) none)).trace,
      e.isRun = false ∧ e.isNewClient = false ∧ e.isSave = false) ∧
    (main (sampleEnv "list" (some badConfig, none) none)).exit.code ≠ 0 :=
  ⟨rfl,
   (failed_precondition_skips_run (sampleEnv "certs" (some prodConfig, none) none) "certs"
      rfl (Or.inl rfl)).2.2,
   rfl,
   (failed_precondition_skips_run (sampleEnv "list" (none, some (.other "bad yaml")) none)
      "list" rfl
      (Or.inr (Or.inl ⟨⟨.listCmd, 4⟩, none, .other "bad yaml", rfl, by decide, rfl⟩))).2.2,
   (failed_precondition_skips_run (sampleEnv "list" (some badConfig, none) none) "list" rfl
      (Or.inr (Or.inr ⟨⟨.listCmd, 4⟩, some badConfig, badTarget,
        .other "missing protocol scheme", rfl, rfl, rfl, rfl, rfl⟩))).1,
   (failed_precondition_skips_run (sampleEnv "list" (some badConfig, none) none) "list" rfl
      (Or.inr (Or.inr ⟨⟨.listCmd, 4⟩, some badConfig, badTarget,
        .other "missing protocol scheme", rfl, rfl, rfl, rfl, rfl⟩))).2.2⟩

theorem sprintfAux_plain (l : List Char) (h : '%' ∉ l) : sprintfAux l [] = some l := by
  induction l with
  | nil => rfl
  | cons c cs ih =>
    have hc : c ≠ '%' := fun e => h (by rw [e]; exact List.mem_cons_self _ _)
    have hcs : '%' ∉ cs := fun m => h (List.mem_cons_of_mem _ m)
    rw [sprintfAux.eq_def]
    simp only [if_neg hc, ih hcs]
    rfl

theorem colorizeAux_inside (colorable : Bool) (l rest : List Char) (h : '}' ∉ l) :
    colorizeAux colorable true (l ++ '}' :: rest) =
      (colorizeAux colorable false rest).map
        (fun o => l ++ ((if colorable then "\x1b[00m".toList else []) ++ o)) := by
  induction l with
  | nil =>
    rw [List.nil_append, colorizeAux, if_pos rfl]
    rfl
  | cons c cs ih =>
    have hc : c ≠ '}' := fun e => h (by rw [e]; exact List.mem_cons_self _ _)
    have hcs : '}' ∉ cs := fun m => h (List.mem_cons_of_mem _ m)
    rw [List.cons_append, colorizeAux, if_neg hc, ih hcs]
    cases colorizeAux colorable false rest <;> rfl

/-- A text with no percent sign and no closing brace, passed to `bailWith` as the
format with no operand, is written unchanged, followed by a newline (and between
the bold-red escape sequences on a colour terminal). -/
theorem bailOutput_plain (msg : String) (h₁ : '%' ∉ msg.toList) (h₂ : '}' ∉ msg.toList) :
    bailOutput false msg [] = some (msg ++ "\n") ∧
    bailOutput true msg [] = some ("\x1b[01;31m" ++ msg ++ "\x1b[00m\n") := by
  have hfmt : fmtSprintf "@R\x7b%s\x7d\n" [Arg.str msg] =
      some (String.mk ('@' :: 'R' :: '{' :: (msg.toList ++ ['}', '\n']))) := rfl
  have hcol : ∀ colorable : Bool,
      colorize colorable (String.mk ('@' :: 'R' :: '{' :: (msg.toList ++ ['}', '\n']))) =
        some (String.mk ((if colorable then "\x1b[01;31m".toList else []) ++
          (msg.toList ++ ((if colorable then "\x1b[00m".toList else []) ++ ['\n'])))) := by
    intro colorable
    have hmem : '}' ∈ msg.toList ++ ['}', '\n'] := by simp
    unfold colorize
    show Option.map String.mk (colorizeAux colorable false
      ('@' :: 'R' :: '{' :: (msg.toList ++ '}' :: ['\n']))) = _
    rw [colorizeAux, if_pos ⟨rfl, Or.inr rfl, rfl, hmem⟩, colorizeAux_inside _ _ _ h₂]
    cases colorable <;> rfl
  have hout : ∀ l : List Char, '%' ∉ l → fmtSprintf (String.mk l) [] = some (String.mk l) := by
    intro l hl
    unfold fmtSprintf
    show Option.map String.mk (sprintfAux l []) = _
    rw [sprintfAux_plain l hl]; rfl
  constructor
  · unfold bailOutput
    rw [hfmt, Option.some_bind, hcol false, Option.some_bind]
    have h₁' : '%' ∉ msg.data := h₁
    have := hout (msg.toList ++ ['\n']) (by simp [h₁'])
    simpa using this
  · unfold bailOutput
    rw [hfmt, Option.some_bind, hcol true, Option.some_bind]
    have := hout ("\x1b[01;31m".toList ++ (msg.toList ++ ("\x1b[00m".toList ++ ['\n'])))
      (by have h₁' : '%' ∉ msg.data := h₁
          simp [h₁'])
    simp only [if_true]
    rw [this]
    rfl

/-- The fixed login instruction is such a text. -/
theorem bailOutput_plain_check :
    bailOutput false loginMsg [] = some (loginMsg ++ "\n") :=
  (bailOutput_plain loginMsg (by decide) (by decide)).1

/-- A failure of `Run` that is not the unauthorized error reaches `bailWith` as
its first argument, the format, and with no operand. -/
theorem other_failure_is_format (env : Env) (cmd : Command) (g g' : Globals) (msg : String)
    (hrun : Event.run cmd g ∈ (main env).trace)
    (hfail : env.Run cmd g = (g', some (.other msg))) :
    (main env).exit = .bailed .handler msg [] := by
  obtain ⟨_, tr, hm, _⟩ := run_mem_main env cmd g hrun
  rw [hm]; unfold runAndSave bailWith; rw [hfail]; rfl

/-- C7, at failing inputs: a handler failure that is not the unauthorized error and
whose text holds a percent sign or a closing brace is not reported unchanged. The
text is handed to `bailWith` as the format with no operand, so `%z` is printed as
a verb with a missing operand, `%%` as a single percent sign, and a closing brace
ends the colour region early. -/
theorem handler_text_not_reported_verbatim :
    (main (sampleEnv "info" (some prodConfig, none)
      (some (.other "invalid URL escape \"%zz\"")))).exit =
        .bailed .handler "invalid URL escape \"%zz\"" [] ∧
    (main (sampleEnv "info" (some prodConfig, none)
      (some (.other "invalid URL escape \"%zz\"")))).reported false =
        some "invalid URL escape \"%!z(MISSING)z\"\n" ∧
    (main (sampleEnv "info" (some prodConfig, none)
      (some (.other "invalid URL escape \"%zz\"")))).reported true =
        some "\x1b[01;31minvalid URL escape \"%!z(MISSING)z\"\x1b[00m\n" ∧
    (main (sampleEnv "refresh" (some prodConfig, none)
      (some (.other "quota at 100%% of limit")))).reported false =
        some "quota at 100% of limit\n" ∧
    (main (sampleEnv "refresh" (some prodConfig, none)
      (some (.other "unexpected \x7d in manifest")))).reported false =
        some "unexpected  in manifest\x7d\n" := by
  refine ⟨?_, ?_, ?_, ?_, ?_⟩ <;> rfl

theorem runAndSave_suffix (env : Env) (cmd : Command) (tr : List Event) (g : Globals) :
    ∃ rest, (runAndSave env cmd tr g).trace = tr ++ rest ∧ ∀ e ∈ rest, e.isLoad = false := by
  refine ⟨_, runAndSave_trace env cmd tr g, ?_⟩
  intro e he
  rcases List.mem_cons.1 he with h | h
  · rw [h]; rfl
  · split at h
    · rw [List.mem_singleton.1 h]; rfl
    · cases h

theorem clientStep_suffix (env : Env) (cmd : Command) (tr : List Event) (g : Globals) :
    ∃ rest, (clientStep env cmd tr g).trace = tr ++ rest ∧ ∀ e ∈ rest, e.isLoad = false := by
  by_cases hn : cmd.typ.noClient = true
  · simp only [clientStep, hn, if_true]
    exact runAndSave_suffix env cmd tr g
  · cases ht : env.CurrentTarget g.cliConf with
    | none =>
      refine ⟨[.currentTarget g.cliConf], ?_, ?_⟩
      · simp only [clientStep, hn, ht, bailWith]; rfl
      · intro e he; rw [List.mem_singleton.1 he]; rfl
    | some t =>
      cases hu : env.urlParse t.Address with
      | error err =>
        refine ⟨[.currentTarget g.cliConf, .urlParse t.Address], ?_, ?_⟩
        · simp [clientStep, hn, ht, hu, bailWith]
        · intro e he
          rcases List.mem_cons.1 he with h | h
          · rw [h]; rfl
          · rw [List.mem_singleton.1 h]; rfl
      | ok u =>
        obtain ⟨rest, h1, h2⟩ := runAndSave_suffix env cmd
          (tr ++ [.currentTarget g.cliConf] ++ [.urlParse t.Address] ++
            [.newClient (buildClient u t env.trace)])
          { cliConf := g.cliConf, target := some t,
            client := some (buildClient u t env.trace) }
        refine ⟨[.currentTarget g.cliConf, .urlParse t.Address,
          .newClient (buildClient u t env.trace)] ++ rest, ?_, ?_⟩
        · simp only [clientStep, hn, ht, hu, Bool.false_eq_true, if_false]
          rw [h1]; simp
        · intro e he
          rcases List.mem_append.1 he with h | h
          · simp only [List.mem_cons, List.mem_singleton, List.not_mem_nil, or_false] at h
            rcases h with rfl | rfl | rfl <;> rfl
          · exact h2 e h

/-- The server's handler runs without any call of `loadConfig`; for every other
handler the trace of `main` starts with the only call of `loadConfig`. -/
theorem loadConfig_calls (env : Env) (name : String) (cmd : Command)
    (hverb : env.parsed = .verb name)
    (hcmd : cmdIndex env name = some cmd) :
    (cmd.typ = .serverCmd → ∀ e ∈ (main env).trace, e.isLoad = false) ∧
    (cmd.typ ≠ .serverCmd → ∃ rest, (main env).trace = .loadConfig env.configPath :: rest ∧
      ∀ e ∈ rest, e.isLoad = false) := by
  have hm : main env = loadStep env cmd [] Globals.init := by
    rw [main_of_verb env name hverb]; unfold lookupStep; rw [hcmd]
  rw [hm]
  constructor
  · intro hs
    obtain ⟨rest, h1, h2⟩ := clientStep_suffix env cmd [] Globals.init
    simp only [loadStep, hs, if_true]
    rw [h1]; exact h2
  · intro hs
    cases hld : env.loadConfig env.configPath with
    | mk c r =>
      cases r with
      | some err =>
        refine ⟨[], ?_, by simp⟩
        simp [loadStep, hs, hld, bailWith]
      | none =>
        obtain ⟨rest, h1, h2⟩ := clientStep_suffix env cmd
          ([] ++ [.loadConfig env.configPath] ++ [.currentTarget c])
          { cliConf := c, target := env.CurrentTarget c, client := none }
        refine ⟨.currentTarget c :: rest, ?_, ?_⟩
        · simp only [loadStep, hs, if_false, hld]
          exact h1
        · intro e he
          rcases List.mem_cons.1 he with h | h
          · rw [h]; rfl
          · exact h2 e h

/-- C8, at the failing input: the verb `server` with a handler that returns success.
The trace of `main` holds no call of `loadConfig`, and after `Run` it holds a call
of `saveConfig` on the nil `cliConf`. -/
theorem server_success_calls_saveConfig :
    cmdIndex (sampleEnv "server" (some prodConfig, none) none) "server"
      = some ⟨.serverCmd, 0⟩ ∧
    (main (sampleEnv "server" (some prodConfig, none) none)).trace =
      [.run ⟨.serverCmd, 0⟩ Globals.init, .saveConfig none ".dday"] ∧
    (main (sampleEnv "server" (some prodConfig, none) none)).exit = .returned := by
  refine ⟨?_, ?_, ?_⟩ <;> rfl

theorem main_of_prepared (env : Env) (name : String) (cmd : Command) (g : Globals)
    (hverb : env.parsed = .verb name)
    (hcmd : cmdIndex env name = some cmd) (hp : Prepared env cmd g) :
    ∃ tr, main env = runAndSave env cmd tr g := by
  rw [main_of_verb env name hverb]
  unfold lookupStep
  rw [hcmd]
  unfold Prepared at hp
  unfold loadStep clientStep
  by_cases hs : cmd.typ = .serverCmd
  · have hn : cmd.typ.noClient = true := by rw [hs]; rfl
    rw [if_pos hs] at hp
    subst hp
    simp only [hs, if_true, hn]
    exact ⟨_, rfl⟩
  · rw [if_neg hs] at hp
    obtain ⟨conf, hl, hp⟩ := hp
    by_cases hn : cmd.typ.noClient = true
    · rw [if_pos hn] at hp
      subst hp
      simp only [hs, if_false, hl, hn, if_true]
      exact ⟨_, rfl⟩
    · rw [if_neg hn] at hp
      obtain ⟨t, u, ht, hu, rfl⟩ := hp
      simp only [hs, if_false, hl, hn, ht, hu]
      exact ⟨_, rfl⟩

theorem code_of_stepsSucceed (env : Env) (h : StepsSucceed env) :
    (main env).exit = .returned := by
  obtain ⟨name, cmd, g, g', hv, hcmd, hp, hr, hsv⟩ := h
  obtain ⟨tr, hm⟩ := main_of_prepared env name cmd g hv hcmd hp
  rw [hm]; unfold runAndSave; rw [hr]; simp only []; rw [hsv]

theorem code_of_stepFails (env : Env) (h : StepFails env) :
    (main env).exit.code ≠ 0 := by
  rcases h with h | h | h | h | h | h
  · obtain ⟨name, hv, h⟩ := h
    rw [main_of_verb env name hv]; unfold lookupStep; rw [h]; simp [Exit.code]
  · obtain ⟨name, cmd, c, err, hv, hcmd, hs, hl⟩ := h
    rw [main_of_verb env name hv]; unfold lookupStep; rw [hcmd]; unfold loadStep
    simp [hs, hl, bailWith, Exit.code]
  · obtain ⟨name, cmd, conf, hv, hcmd, hn, hl, ht⟩ := h
    have hs : cmd.typ ≠ .serverCmd := by
      intro h; rw [h] at hn; cases hn
    rw [main_of_verb env name hv]; unfold lookupStep; rw [hcmd]; unfold loadStep clientStep
    simp [hs, hn, hl, ht, bailWith, Exit.code]
  · obtain ⟨name, cmd, conf, t, err, hv, hcmd, hn, hl, ht, hu⟩ := h
    have hs : cmd.typ ≠ .serverCmd := by
      intro h; rw [h] at hn; cases hn
    rw [main_of_verb env name hv]; unfold lookupStep; rw [hcmd]; unfold loadStep clientStep
    simp [hs, hn, hl, ht, hu, bailWith, Exit.code]
  · obtain ⟨name, cmd, g, g', err, hv, hcmd, hp, hr⟩ := h
    obtain ⟨tr, hm⟩ := main_of_prepared env name cmd g hv hcmd hp
    rw [hm]; unfold runAndSave; rw [hr]; simp [bailWith, Exit.code]
  · obtain ⟨name, cmd, g, g', err, hv, hcmd, hp, hr, hsv⟩ := h
    obtain ⟨tr, hm⟩ := main_of_prepared env name cmd g hv hcmd hp
    rw [hm]; unfold runAndSave; rw [hr]; simp only []; rw [hsv]; simp [bailWith, Exit.code]

theorem prepared_or_fails (env : Env) (name : String) (cmd : Command)
    (hverb : env.parsed = .verb name)
    (hcmd : cmdIndex env name = some cmd) :
    (∃ g, Prepared env cmd g) ∨ ConfigLoadError env ∨ NoTargetSelected env ∨
      AddressParseError env := by
  unfold Prepared
  by_cases hs : cmd.typ = .serverCmd
  · exact Or.inl ⟨Globals.init, by rw [if_pos hs]⟩
  · simp only [if_neg hs]
    cases hl : env.loadConfig env.configPath with
    | mk c e =>
      cases e with
      | some err => exact Or.inr (Or.inl ⟨name, cmd, c, err, hverb, hcmd, hs, hl⟩)
      | none =>
        by_cases hn : cmd.typ.noClient = true
        · exact Or.inl ⟨_, c, rfl, by rw [if_pos hn]⟩
        · have hn' : cmd.typ.noClient = false := by simpa using hn
          cases ht : env.CurrentTarget c with
          | none => exact Or.inr (Or.inr (Or.inl ⟨name, cmd, c, hverb, hcmd, hn', hl, ht⟩))
          | some t =>
            cases hu : env.urlParse t.Address with
            | error err =>
              exact Or.inr (Or.inr (Or.inr ⟨name, cmd, c, t, err, hverb, hcmd, hn', hl, ht, hu⟩))
            | ok u => exact Or.inl ⟨_, c, rfl, by rw [if_neg hn]; exact ⟨t, u, ht, hu, rfl⟩⟩

theorem succeed_or_fail (env : Env) (name : String) (hverb : env.parsed = .verb name) :
    StepsSucceed env ∨ StepFails env := by
  cases hcmd : cmdIndex env name with
  | none => exact Or.inr (Or.inl ⟨name, hverb, hcmd⟩)
  | some cmd =>
    rcases prepared_or_fails env name cmd hverb hcmd with ⟨g, hp⟩ | h | h | h
    · cases hr : env.Run cmd g with
      | mk g' r =>
        cases r with
        | some err => exact Or.inr (Or.inr (Or.inr (Or.inr (Or.inr (Or.inl
            ⟨name, cmd, g, g', err, hverb, hcmd, hp, hr⟩)))))
        | none =>
          cases hsv : env.saveConfig g'.cliConf env.configPath with
          | none => exact Or.inl ⟨name, cmd, g, g', hverb, hcmd, hp, hr, hsv⟩
          | some err => exact Or.inr (Or.inr (Or.inr (Or.inr (Or.inr (Or.inr
              ⟨name, cmd, g, g', err, hverb, hcmd, hp, hr, hsv⟩)))))
    · exact Or.inr (Or.inr (Or.inl h))
    · exact Or.inr (Or.inr (Or.inr (Or.inl h)))
    · exact Or.inr (Or.inr (Or.inr (Or.inr (Or.inl h))))

theorem stepsSucceed_verb (env : Env) (h : StepsSucceed env) :
    ∃ name, env.parsed = .verb name := by
  obtain ⟨name, _, _, _, hv, _⟩ := h
  exact ⟨name, hv⟩

theorem main_of_ended (env : Env) (status : Nat) (h : env.parsed = .ended status) :
    main env = Outcome.mk [] Globals.init (.ended status) := by
  unfold main; rw [h]

/-- C9, as stated, fails on the invocation `doomsday --version`: the process ends
with status 0 inside the call of line 81, although no step of the claim took place:
no verb was looked up, and the trace holds no call of `loadConfig`, `Run` or
`saveConfig`. -/
theorem exit_zero_without_steps :
    (main versionEnv).exit.code = 0 ∧ (main versionEnv).trace = [] ∧
    ¬ StepsSucceed versionEnv ∧
    ¬ ((main versionEnv).exit.code = 0 ↔ StepsSucceed versionEnv) := by
  have hn : ¬ StepsSucceed versionEnv := by
    intro h
    obtain ⟨name, hv⟩ := stepsSucceed_verb versionEnv h
    cases hv
  exact ⟨rfl, rfl, hn, fun h => hn (h.1 rfl)⟩

/-- C9, amended: the exit status of `main` is 0 exactly when every step succeeds
(the verb is registered, the configuration loads when required, a current target
exists and its address parses when a client is required, `Run` succeeds and
`saveConfig` succeeds) or the process ends with status 0 inside the argument
parser's call of line 81. Each of the six failures (unknown verb, configuration
load error, no target selected, address parse error, handler failure,
configuration save error) gives a status other than 0, namely 1 or 2; and when
line 81 returns a verb, status 0 holds exactly when every step succeeds and a
status other than 0 exactly when one of the six failures occurs. -/
theorem exit_code_zero_iff (env : Env) :
    ((main env).exit.code = 0 ↔ StepsSucceed env ∨ env.parsed = .ended 0) ∧
    (StepFails env → (main env).exit.code = 1 ∨ (main env).exit.code = 2) ∧
    (∀ name, env.parsed = .verb name →
      ((main env).exit.code = 0 ↔ StepsSucceed env) ∧
      ((main env).exit.code ≠ 0 ↔ StepFails env) ∧
      ((main env).exit.code = 0 ↔ (main env).exit = .returned) ∧
      ((main env).exit.code = 0 ∨ (main env).exit.code = 1 ∨ (main env).exit.code = 2)) := by
  have h0 : StepsSucceed env → (main env).exit.code = 0 := by
    intro h; rw [code_of_stepsSucceed env h]; rfl
  have hverb : ∀ name, env.parsed = .verb name →
      ((main env).exit.code = 0 ↔ StepsSucceed env) ∧
      ((main env).exit.code ≠ 0 ↔ StepFails env) ∧
      ((main env).exit.code = 0 ↔ (main env).exit = .returned) ∧
      ((main env).exit.code = 0 ∨ (main env).exit.code = 1 ∨ (main env).exit.code = 2) := by
    intro name hv
    have hne : ∀ status, (main env).exit ≠ .ended status := by
      intro status he
      rcases main_shape env with ⟨st, hp, _⟩ | ⟨_, _, _, hm⟩ | ⟨_, cmd, _, _, hE | hR⟩
      · rw [hv] at hp; cases hp
      · rw [hm] at he; cases he
      · obtain ⟨tr, g, site, f, a, hm, _⟩ := hE
        rw [hm] at he; cases he
      · obtain ⟨tr, g, hm, _⟩ := hR
        rw [hm] at he
        rcases runAndSave_exit env cmd tr g with h | ⟨f, a, h⟩ | ⟨f, a, h⟩ <;>
          rw [h] at he <;> cases he
    refine ⟨⟨?_, h0⟩, ⟨?_, code_of_stepFails env⟩, ?_, ?_⟩
    · intro h
      rcases succeed_or_fail env name hv with hs | hf
      · exact hs
      · exact absurd h (code_of_stepFails env hf)
    · intro h
      rcases succeed_or_fail env name hv with hs | hf
      · exact absurd (h0 hs) h
      · exact hf
    · cases he : (main env).exit with
      | ended status => exact absurd he (hne status)
      | returned => simp [Exit.code]
      | bailed site f a => simp [Exit.code]
      | panicked msg => simp [Exit.code]
    · cases he : (main env).exit with
      | ended status => exact absurd he (hne status)
      | returned => simp [Exit.code]
      | bailed site f a => simp [Exit.code]
      | panicked msg => simp [Exit.code]
  refine ⟨⟨?_, ?_⟩, ?_, hverb⟩
  · intro h
    cases hp : env.parsed with
    | verb name => exact Or.inl (((hverb name hp).1).1 h)
    | ended status =>
      rw [main_of_ended env status hp] at h
      have hs : status = 0 := h
      rw [hs]; exact Or.inr rfl
  · rintro (h | h)
    · exact h0 h
    · rw [main_of_ended env 0 h]; rfl
  · intro hf
    have hv : ∃ name, env.parsed = .verb name := by
      rcases hf with h | h | h | h | h | h
      · obtain ⟨name, hv, _⟩ := h; exact ⟨name, hv⟩
      · obtain ⟨name, _, _, _, hv, _⟩ := h; exact ⟨name, hv⟩
      · obtain ⟨name, _, _, hv, _⟩ := h; exact ⟨name, hv⟩
      · obtain ⟨name, _, _, _, _, hv, _⟩ := h; exact ⟨name, hv⟩
      · obtain ⟨name, _, _, _, _, hv, _⟩ := h; exact ⟨name, hv⟩
      · obtain ⟨name, _, _, _, _, hv, _⟩ := h; exact ⟨name, hv⟩
    obtain ⟨name, hv⟩ := hv
    have h3 := (hverb name hv).2.2.2
    have hne := code_of_stepFails env hf
    rcases h3 with h | h | h
    · exact absurd h hne
    · exact Or.inl h
    · exact Or.inr h

/-- Runs of `info`: one in which every step succeeds, and one for each failure that
a command line can produce. -/
theorem exit_code_zero_iff_witness :
    (main (sampleEnv "info" (some prodConfig, none) none)).exit.code = 0 ∧
    ((main (sampleEnv "info" (none, some (.other "bad yaml")) none)).exit.code = 1 ∨
      (main (sampleEnv "info" (none, some (.other "bad yaml")) none)).exit.code = 2) ∧
    ((main (sampleEnv "info" (some emptyConfig, none) none)).exit.code ≠ 0 ↔
      StepFails (sampleEnv "info" (some emptyConfig, none) none)) ∧
    (main (sampleEnv "info" (some emptyConfig, none) none)).exit.code = 1 ∧
    (main (sampleEnv "info" (some badConfig, none) none)).exit.code = 1 ∧
    (main (sampleEnv "info" (some prodConfig, none) (some (.other "timeout")))).exit.code = 1 ∧
    (main { sampleEnv "info" (some prodConfig, none) none with
            saveConfig := fun _ _ => some (.other "read-only") }).exit.code = 1 :=
  ⟨(exit_code_zero_iff (sampleEnv "info" (some prodConfig, none) none)).1.2
      (Or.inl ⟨"info", ⟨.infoCmd, 8⟩,
       { cliConf := some prodConfig, target := some prodTarget,
         client := some (buildClient ⟨"https", "prod.example", ""⟩ prodTarget (some false)) },
       _, rfl, rfl,
       by
         unfold Prepared
         rw [if_neg (by decide)]
         exact ⟨some prodConfig, rfl, by
           rw [if_neg (by decide)]
           exact ⟨prodTarget, ⟨"https", "prod.example", ""⟩, rfl, rfl, rfl⟩⟩,
       rfl, rfl⟩),
   (exit_code_zero_iff (sampleEnv "info" (none, some (.other "bad yaml")) none)).2.1
      (Or.inr (Or.inl ⟨"info", ⟨.infoCmd, 8⟩, none, .other "bad yaml", rfl, rfl,
        by decide, rfl⟩)),
   ((exit_code_zero_iff (sampleEnv "info" (some emptyConfig, none) none)).2.2
      "info" rfl).2.1,
   rfl, rfl, rfl, rfl⟩

end Doomsday
